import Mathlib

/-!
Shallow embedding of the paper-tactics game engine
(`src/paper_tactics/entities/game.py`) and proofs about it.

Python sets become `Finset Cell`; mutation becomes explicit state passing.
The geometry provider, the opponent policy (`GameBot`), the random source and
the `Player` / `GamePreferences` dataclasses live outside the given source
file; they are modelled from the spec where noted.
-/

/-- A board cell: a coordinate pair (the source uses tuples such as
`(1, first_base_y)` and `(x + 1, y + 1)`). -/
abbrev Cell := Nat × Nat

/-- Modelled from the spec: the injected deterministic random provider.
`randint lo hi r` deterministically places the raw draw `r` into the inclusive
range `[lo, hi]`, matching Python's `randint(lo, hi)` contract for each raw
outcome `r` of the random source. -/
def randint (lo hi r : Nat) : Nat := lo + r % (hi + 1 - lo)

/-- Modelled from the spec: the board geometry's point-symmetric mirror of a
cell on a board of edge length `size` ("given a cell, produces ... its
point-symmetric mirror cell; parameterized by board size"). -/
def pointMirror (size : Nat) (c : Cell) : Cell := (size + 1 - c.1, size + 1 - c.2)

/-- Modelled from the spec: the per-game configuration bundle
(`GamePreferences`), including the two geometry queries it exposes to the
engine (`get_adjacent_cells`, `get_symmetric_cell`), which the spec treats as
an external provider parameterized by board size. -/
structure GamePreferences where
  size : Nat
  turn_count : Int
  is_deathmatch : Bool
  is_against_bot : Bool
  is_double_base : Bool
  is_with_random_bases : Bool
  is_visibility_applied : Bool
  trench_density_percent : Nat
  get_adjacent_cells : Cell → Finset Cell
  get_symmetric_cell : Cell → Cell

/-- Modelled from the spec: the per-player mutable territory record
(`Player`): owned cells, walls, reachable cells, fog-of-war knowledge sets,
terminal flags and an opaque view payload. -/
structure Player where
  id : String
  units : Finset Cell
  walls : Finset Cell
  reachable : Finset Cell
  visible_opponent : Finset Cell
  visible_terrain : Finset Cell
  view_data : String
  is_gone : Bool
  is_defeated : Bool
deriving DecidableEq

/-- Modelled from the spec: a freshly constructed `Player` with a given id —
every set field independently empty, flags false. -/
def freshPlayer (pid : String) : Player :=
  { id := pid, units := ∅, walls := ∅, reachable := ∅, visible_opponent := ∅,
    visible_terrain := ∅, view_data := "", is_gone := false, is_defeated := false }

/-- Modelled from the spec: `can_win` is derived as "not defeated". -/
def Player.can_win (p : Player) : Bool := !p.is_defeated

/-- Modelled from the spec: the read-only per-player projection (`PlayerView`). -/
structure PlayerView where
  units : Finset Cell
  walls : Finset Cell
  reachable : Finset Cell
  view_data : String
  is_gone : Bool
  is_defeated : Bool
deriving DecidableEq

/-- Modelled from the spec: the read-only projection of a game (`GameView`). -/
structure GameView where
  id : String
  turns_left : Int
  my_turn : Bool
  me : PlayerView
  opponent : PlayerView
  trenches : Finset Cell
  preferences : GamePreferences

/-- The errors the engine can signal: `IllegalTurnException` (carrying game id,
player id and offending cell, as in the source) and a fatal assertion failure
(the opponent policy returning a cell outside the passive player's reachable
set). -/
inductive GameError where
  | illegalTurn (gameId : String) (playerId : String) (cell : Cell)
  | assertionFailed
deriving DecidableEq

/-- The game state (`Game` dataclass): id, preferences, turn countdown, the two
player records in their current roles, and the trench set. -/
structure Game where
  id : String
  preferences : GamePreferences
  turns_left : Int
  active_player : Player
  passive_player : Player
  trenches : Finset Cell

/-- A freshly constructed game, before `init()`: two fresh players, no
trenches, `turns_left` 0. -/
def Game.fresh (gid : String) (prefs : GamePreferences) (aid pid : String) : Game :=
  { id := gid, preferences := prefs, turns_left := 0,
    active_player := freshPlayer aid, passive_player := freshPlayer pid,
    trenches := ∅ }

/-- All cells adjacent to some cell of `S`, via the geometry provider. -/
def adjSet (prefs : GamePreferences) (S : Finset Cell) : Finset Cell :=
  S.biUnion prefs.get_adjacent_cells

/-- One pass of the frontier loop: the wall cells newly admitted to the
frontier (`new_sources` in the source) — adjacent to the current frontier `S`,
not already in it, and among the player's own walls. -/
def newSources (prefs : GamePreferences) (pw S : Finset Cell) : Finset Cell :=
  (adjSet prefs S).filter (fun c => c ∉ S ∧ c ∈ pw)

/-- One pass of the frontier loop: the cells added to `player.reachable` —
adjacent to the frontier `S`, not in `S`, not a wall of either side, not a
unit of the player. -/
def reachAdd (prefs : GamePreferences) (pu pw ow S : Finset Cell) : Finset Cell :=
  (adjSet prefs S).filter (fun c => c ∉ S ∧ c ∉ pw ∧ c ∉ ow ∧ c ∉ pu)

/-- The `while True` frontier loop of `Game._rebuild_reachable_set`, with an
explicit fuel (the caller passes `|units ∪ walls| + 1`, which suffices: the
frontier starts at `units`, stays inside `units ∪ walls` and grows strictly on
every continuing pass).  State: frontier `S`, accumulated reachable `R`, the
two fog-of-war knowledge sets `vo` (`visible_opponent`) and `vt`
(`visible_terrain`). -/
def floodLoop (prefs : GamePreferences) (trenches pu pw ow : Finset Cell) (vis : Bool) :
    Nat → Finset Cell → Finset Cell → Finset Cell → Finset Cell →
    Finset Cell × Finset Cell × Finset Cell × Finset Cell
  | 0, S, R, vo, vt => (S, R, vo, vt)
  | fuel + 1, S, R, vo, vt =>
    let A := adjSet prefs S
    let vo' := if vis then vo ∪ A else vo
    let vt' := if vis then
        vt ∪ A.filter (fun c => c ∈ trenches)
           ∪ (A.filter (fun c => c ∈ trenches)).image prefs.get_symmetric_cell
      else vt
    let ns := newSources prefs pw S
    let R' := R ∪ reachAdd prefs pu pw ow S
    if ns = ∅ then (S, R', vo', vt')
    else floodLoop prefs trenches pu pw ow vis fuel (S ∪ ns) R' vo' vt'

/-- `Game._rebuild_reachable_set(player, opponent)`: clears and recomputes
`player.reachable` by the frontier loop; under fog-of-war first prunes
`player.visible_opponent` to cells still occupied or walled by the opponent
and unions in the opponent's non-trench walls, then records every cell the
loop touches. Only `player` is mutated; `opponent` is read. -/
def Game.rebuild_reachable_set (prefs : GamePreferences) (trenches : Finset Cell)
    (player opponent : Player) : Player :=
  let vo0 := if prefs.is_visibility_applied then
      player.visible_opponent.filter
          (fun c => c ∈ opponent.units ∨ c ∈ opponent.walls)
        ∪ opponent.walls.filter (fun c => c ∉ trenches)
    else player.visible_opponent
  let fuel := (player.units ∪ player.walls).card + 1
  let out := floodLoop prefs trenches player.units player.walls opponent.walls
      prefs.is_visibility_applied fuel player.units ∅ vo0 player.visible_terrain
  { player with reachable := out.2.1, visible_opponent := out.2.2.1,
                visible_terrain := out.2.2.2 }

/-- `Game._make_turn(cell, player, opponent)`: resolve one chosen cell for the
mover `player` against `opponent`; returns the updated `(player, opponent)`
pair. Capture if the cell is an opponent unit; else trench defense if it is a
trench; else expansion. The mover's reachable set is rebuilt in every case. -/
def Game.resolve_turn (prefs : GamePreferences) (trenches : Finset Cell)
    (cell : Cell) (player opponent : Player) : Player × Player :=
  if cell ∈ opponent.units then
    let opponent1 := { opponent with units := opponent.units.erase cell }
    let player1 := { player with walls := insert cell player.walls }
    let opponent2 := Game.rebuild_reachable_set prefs trenches opponent1 player1
    (Game.rebuild_reachable_set prefs trenches player1 opponent2, opponent2)
  else if cell ∈ trenches then
    let player1 := { player with walls := insert cell player.walls }
    let opponent1 := { opponent with reachable := opponent.reachable.erase cell }
    (Game.rebuild_reachable_set prefs trenches player1 opponent1, opponent1)
  else
    let player1 := { player with units := insert cell player.units }
    (Game.rebuild_reachable_set prefs trenches player1 opponent, opponent)

/-- `Game.get_view(player_id)`: project the game for one player. `none` models
the failed assertion when the id belongs to neither player. The returned
`Game` component records the state after the call (the method only builds a
transient player record, so it is the input state). -/
def Game.get_view (g : Game) (player_id : String) : Option (GameView × Game) :=
  if player_id = g.active_player.id ∨ player_id = g.passive_player.id then
    let me := if player_id = g.active_player.id then g.active_player else g.passive_player
    let opponent := if player_id = g.active_player.id then g.passive_player else g.active_player
    let restricted :=
      if g.preferences.is_visibility_applied ∧ me.can_win ∧ opponent.can_win then
        let opponent_units := opponent.units ∩ me.visible_opponent
        let opponent_walls := opponent.walls ∩ me.visible_opponent
        let trenches := g.trenches ∩ me.visible_terrain
        let visible_opponent := Game.rebuild_reachable_set g.preferences g.trenches
          { freshPlayer "" with units := opponent_units, walls := opponent_walls } me
        (opponent_units, opponent_walls, visible_opponent.reachable, trenches)
      else
        (opponent.units, opponent.walls, opponent.reachable, g.trenches)
    some
      ({ id := g.id
         turns_left := g.turns_left
         my_turn := decide (me = g.active_player)
         me := { units := me.units, walls := me.walls, reachable := me.reachable,
                 view_data := me.view_data, is_gone := me.is_gone,
                 is_defeated := me.is_defeated }
         opponent := { units := restricted.1, walls := restricted.2.1,
                       reachable := restricted.2.2.1, view_data := opponent.view_data,
                       is_gone := opponent.is_gone, is_defeated := opponent.is_defeated }
         trenches := restricted.2.2.2
         preferences := g.preferences }, g)
  else none

/-- Swap the two player roles (the human-vs-human round boundary). -/
def Game.swapPlayers (g : Game) : Game :=
  { g with active_player := g.passive_player, passive_player := g.active_player }

/-- The final check of `Game._decrement_turns`: an active player with an empty
reachable set is marked defeated unless the passive player already is. -/
def Game.defeatCheck (g : Game) : Game :=
  if g.active_player.reachable = ∅ ∧ ¬g.passive_player.is_defeated then
    { g with active_player := { g.active_player with is_defeated := true } }
  else g

/-- `self.turns_left -= 1`. -/
def Game.tickTurn (g : Game) : Game := { g with turns_left := g.turns_left - 1 }

/-- `self.preferences.turn_count += 1`. -/
def Game.bumpTurnCount (g : Game) : Game :=
  { g with preferences := { g.preferences with
      turn_count := g.preferences.turn_count + 1 } }

/-- `if self.preferences.is_deathmatch: self.preferences.turn_count += 1`. -/
def Game.deathmatchBump (g : Game) : Game :=
  if g.preferences.is_deathmatch then g.bumpTurnCount else g

/-- `self.turns_left = self.preferences.turn_count`. -/
def Game.resetTurns (g : Game) : Game :=
  { g with turns_left := g.preferences.turn_count }

/-- The bot round (`for _ in range(self.preferences.turn_count)` in
`Game._decrement_turns`): up to `n` automated moves for the passive player.
An empty reachable set marks the passive player defeated and breaks the loop;
a policy cell outside the passive player's reachable set is the fatal
assertion. -/
def Game.botLoop (bot : GameView → Int → Cell) : Nat → Game → Option GameError × Game
  | 0, g => (none, g)
  | n + 1, g =>
    if g.passive_player.reachable = ∅ then
      (none, { g with passive_player := { g.passive_player with is_defeated := true } })
    else
      match g.get_view g.passive_player.id with
      | none => (some .assertionFailed, g)
      | some (view, g1) =>
        let cell := bot view g1.turns_left
        if cell ∈ g1.passive_player.reachable then
          let moved := Game.resolve_turn g1.preferences g1.trenches cell
            g1.passive_player g1.active_player
          Game.botLoop bot n
            { g1 with passive_player := moved.1, active_player := moved.2,
                      turns_left := g1.turns_left - 1 }
        else (some .assertionFailed, g1)

/-- The zero-countdown branch of `Game._decrement_turns`, entered with the
deathmatch escalation and countdown reset already applied (`g3` in the source
numbering): either the bot round — followed by a second deathmatch escalation
and reset when it completes without error — or the human-vs-human role swap. -/
def Game.roundZero (bot : GameView → Int → Cell) (g3 : Game) :
    Option GameError × Game :=
  if g3.preferences.is_against_bot then
    match Game.botLoop bot g3.preferences.turn_count.toNat g3 with
    | (some e, g4) => (some e, g4)
    | (none, g4) => (none, g4.deathmatchBump.resetTurns)
  else (none, g3.swapPlayers)

/-- `Game._decrement_turns()`: decrement `turns_left`; at zero, escalate under
deathmatch, reset the countdown, then either run the bot round (with a second
deathmatch escalation and reset afterwards) or swap roles; finally the defeat
check. An error from the bot round propagates before the defeat check. -/
def Game.decrement_turns (bot : GameView → Int → Cell) (g : Game) :
    Option GameError × Game :=
  match
    (if g.tickTurn.turns_left = 0 then
      Game.roundZero bot g.tickTurn.deathmatchBump.resetTurns
    else (none, g.tickTurn)) with
  | (some e, gE) => (some e, gE)
  | (none, gO) => (none, gO.defeatCheck)

/-- The rejection condition of `make_turn`: the submitter is not the active
player, or the cell is not in the active player's reachable set, or a player
can no longer win. -/
def illegalCond (g : Game) (player_id : String) (cell : Cell) : Prop :=
  player_id ≠ g.active_player.id ∨ cell ∉ g.active_player.reachable ∨
    ¬(g.active_player.can_win ∧ g.passive_player.can_win)

instance (g : Game) (player_id : String) (cell : Cell) :
    Decidable (illegalCond g player_id cell) := by
  unfold illegalCond
  infer_instance

/-- `Game.make_turn(player_id, cell)`: reject with `IllegalTurnException`
(before any mutation) unless the submitter is the active player, the cell is
in the active player's reachable set and both players can still win; otherwise
resolve the move and run the round bookkeeping. -/
def Game.make_turn (bot : GameView → Int → Cell) (g : Game)
    (player_id : String) (cell : Cell) : Option GameError × Game :=
  if illegalCond g player_id cell then
    (some (.illegalTurn g.id player_id cell), g)
  else
    let moved := Game.resolve_turn g.preferences g.trenches cell
      g.active_player g.passive_player
    Game.decrement_turns bot
      { g with active_player := moved.1, passive_player := moved.2 }

/-- `Game._generate_trenches()` as the set it yields: for each candidate
`(x, y)` with `x < size`, `y < half`, excluding the center duplicate, skipping
base cells of either player, a density-weighted random draw admits the
candidate `(x+1, y+1)` together with its mirror `(size-x, size-y)`.
The random source is modelled as one raw draw per candidate cell. -/
def Game.generate_trenches (prefs : GamePreferences)
    (activeUnits passiveUnits : Finset Cell) (randT : Cell → Nat) : Finset Cell :=
  if prefs.trench_density_percent = 0 then ∅
  else
    let size := prefs.size
    let half := (size + 1) / 2
    ((Finset.range size ×ˢ Finset.range half).filter (fun q =>
        (q.2 < half - 1 ∨ q.1 < half)
        ∧ (q.1 + 1, q.2 + 1) ∉ activeUnits
        ∧ (q.1 + 1, q.2 + 1) ∉ passiveUnits
        ∧ randint 1 100 (randT (q.1 + 1, q.2 + 1)) ≤ prefs.trench_density_percent)).biUnion
      (fun q => {(q.1 + 1, q.2 + 1), (size - q.1, size - q.2)})

/-- `first_base_y` in `Game._init_players`: row 1, or a random row in the
lower half of the board. -/
def initFirstY (prefs : GamePreferences) (r1 : Nat) : Nat :=
  if prefs.is_with_random_bases then randint 1 ((prefs.size + 1) / 2) r1 else 1

/-- `second_base_y` in `Game._init_players`: row 1, or a random row in the
upper half of the board. -/
def initSecondY (prefs : GamePreferences) (r2 : Nat) : Nat :=
  if prefs.is_with_random_bases then randint (prefs.size / 2 + 1) prefs.size r2 else 1

/-- The active player's units after `Game._init_players`: base `(1, first_base_y)`
and, under double base, also `(1, second_base_y)`, added to the prior units. -/
def initActiveUnits (prefs : GamePreferences) (u0 : Finset Cell) (r1 r2 : Nat) :
    Finset Cell :=
  if prefs.is_double_base then
    insert (1, initSecondY prefs r2) (insert (1, initFirstY prefs r1) u0)
  else insert (1, initFirstY prefs r1) u0

/-- The passive player's units after `Game._init_players`: the mirrored rows
along the opposite edge. -/
def initPassiveUnits (prefs : GamePreferences) (u0 : Finset Cell) (r1 r2 : Nat) :
    Finset Cell :=
  if prefs.is_double_base then
    insert (prefs.size, prefs.size - initSecondY prefs r2 + 1)
      (insert (prefs.size, prefs.size - initFirstY prefs r1 + 1) u0)
  else insert (prefs.size, prefs.size - initFirstY prefs r1 + 1) u0

/-- `Game.init()`: assert the two ids are distinct (`none` on failure), place
bases (`Game._init_players`), generate trenches, rebuild both reachable sets
(the passive player's rebuild reads the already-rebuilt active player), and
set `turns_left` to `turn_count`. `r1`, `r2`, `randT` are the raw outcomes of
the injected random source. -/
def Game.init (g : Game) (r1 r2 : Nat) (randT : Cell → Nat) : Option Game :=
  if g.active_player.id = g.passive_player.id then none
  else
    let active0 := { g.active_player with
      units := initActiveUnits g.preferences g.active_player.units r1 r2 }
    let passive0 := { g.passive_player with
      units := initPassiveUnits g.preferences g.passive_player.units r1 r2 }
    let trenches := Game.generate_trenches g.preferences active0.units passive0.units randT
    let active1 := Game.rebuild_reachable_set g.preferences trenches active0 passive0
    let passive1 := Game.rebuild_reachable_set g.preferences trenches passive0 active1
    some { g with active_player := active1, passive_player := passive1,
                  trenches := trenches, turns_left := g.preferences.turn_count }

/-- The states reachable from a freshly constructed game by `init()` followed
by any sequence of successful `make_turn` calls (each against an arbitrary
opponent policy). -/
inductive Reaches : Game → Prop
  | init_reached (gid : String) (prefs : GamePreferences) (aid pid : String)
      (r1 r2 : Nat) (randT : Cell → Nat) (g' : Game) :
      (Game.fresh gid prefs aid pid).init r1 r2 randT = some g' → Reaches g'
  | step (g : Game) (bot : GameView → Int → Cell) (pid : String) (cell : Cell)
      (g' : Game) : Reaches g → g.make_turn bot pid cell = (none, g') → Reaches g'

/-! ### Basic facts about the frontier loop and the rebuild -/

/-- Cells admitted to `reachable` in one pass avoid the frontier, both wall
sets and the player's units. -/
lemma mem_reachAdd {prefs : GamePreferences} {pu pw ow S : Finset Cell} {c : Cell}
    (h : c ∈ reachAdd prefs pu pw ow S) :
    c ∉ S ∧ c ∉ pw ∧ c ∉ ow ∧ c ∉ pu := by
  have := Finset.mem_filter.mp h
  exact this.2

/-- Cells admitted to the frontier in one pass are walls not already in the
frontier. -/
lemma mem_newSources {prefs : GamePreferences} {pw S : Finset Cell} {c : Cell}
    (h : c ∈ newSources prefs pw S) : c ∉ S ∧ c ∈ pw := by
  have := Finset.mem_filter.mp h
  exact this.2

/-- Every cell in the reachable component of the loop's output either was
already accumulated or satisfies the move-target filter (not a wall of either
side, not a unit of the player). -/
lemma floodLoop_reach_mem (prefs : GamePreferences) (trenches pu pw ow : Finset Cell)
    (vis : Bool) :
    ∀ (fuel : Nat) (S R vo vt : Finset Cell) (c : Cell),
      c ∈ (floodLoop prefs trenches pu pw ow vis fuel S R vo vt).2.1 →
      c ∈ R ∨ (c ∉ pw ∧ c ∉ ow ∧ c ∉ pu) := by
  intro fuel
  induction fuel with
  | zero => intro S R vo vt c hc; exact Or.inl hc
  | succ fuel ih =>
    intro S R vo vt c hc
    rw [floodLoop] at hc
    by_cases hns : newSources prefs pw S = ∅
    · simp only [hns, if_pos rfl] at hc
      rcases Finset.mem_union.mp hc with h | h
      · exact Or.inl h
      · exact Or.inr ⟨(mem_reachAdd h).2.1, (mem_reachAdd h).2.2.1, (mem_reachAdd h).2.2.2⟩
    · simp only [hns, if_neg hns, if_false] at hc
      rcases ih _ _ _ _ _ hc with h | h
      · rcases Finset.mem_union.mp h with h' | h'
        · exact Or.inl h'
        · exact Or.inr ⟨(mem_reachAdd h').2.1, (mem_reachAdd h').2.2.1, (mem_reachAdd h').2.2.2⟩
      · exact Or.inr h

/-- The rebuild leaves every non-derived field of the player unchanged. -/
lemma rebuild_units (prefs : GamePreferences) (t : Finset Cell) (p o : Player) :
    (Game.rebuild_reachable_set prefs t p o).units = p.units := rfl

lemma rebuild_walls (prefs : GamePreferences) (t : Finset Cell) (p o : Player) :
    (Game.rebuild_reachable_set prefs t p o).walls = p.walls := rfl

lemma rebuild_id (prefs : GamePreferences) (t : Finset Cell) (p o : Player) :
    (Game.rebuild_reachable_set prefs t p o).id = p.id := rfl

lemma rebuild_is_defeated (prefs : GamePreferences) (t : Finset Cell) (p o : Player) :
    (Game.rebuild_reachable_set prefs t p o).is_defeated = p.is_defeated := rfl

lemma rebuild_is_gone (prefs : GamePreferences) (t : Finset Cell) (p o : Player) :
    (Game.rebuild_reachable_set prefs t p o).is_gone = p.is_gone := rfl

lemma rebuild_view_data (prefs : GamePreferences) (t : Finset Cell) (p o : Player) :
    (Game.rebuild_reachable_set prefs t p o).view_data = p.view_data := rfl

/-- Soundness of the rebuilt reachable set: it avoids the player's units, the
player's walls and the opponent's walls. -/
lemma rebuild_reach_not (prefs : GamePreferences) (t : Finset Cell) (p o : Player)
    {c : Cell} (hc : c ∈ (Game.rebuild_reachable_set prefs t p o).reachable) :
    c ∉ p.units ∧ c ∉ p.walls ∧ c ∉ o.walls := by
  have h := floodLoop_reach_mem prefs t p.units p.walls o.walls
    prefs.is_visibility_applied ((p.units ∪ p.walls).card + 1) p.units ∅ _ _ c hc
  rcases h with h | h
  · exact absurd h (Finset.not_mem_empty c)
  · exact ⟨h.2.2, h.1, h.2.1⟩

/-! ### Reachable-set invariants and their preservation -/

/-- The reachable-set invariant for one player `p` against opponent `o`:
`p.reachable` avoids `p`'s own units, `p`'s own walls and `o`'s walls. -/
def ReachInv (p o : Player) : Prop :=
  ∀ c ∈ p.reachable, c ∉ p.units ∧ c ∉ p.walls ∧ c ∉ o.walls

/-- The game-level reachable-set invariant: both players satisfy `ReachInv`
against each other. -/
def Game.Inv (g : Game) : Prop :=
  ReachInv g.active_player g.passive_player ∧ ReachInv g.passive_player g.active_player

/-- A freshly rebuilt player satisfies `ReachInv` against any opponent whose
walls were the ones the rebuild read. -/
lemma rebuild_reachInv (prefs : GamePreferences) (t : Finset Cell) (p o : Player) :
    ReachInv (Game.rebuild_reachable_set prefs t p o) o := by
  intro c hc
  have h := rebuild_reach_not prefs t p o hc
  rw [rebuild_units, rebuild_walls] at *
  exact ⟨h.1, h.2.1, h.2.2⟩

/-- `Game._make_turn` preserves the mutual reachable-set invariant (in every
branch, for every chosen cell). -/
lemma resolve_turn_reachInv (prefs : GamePreferences) (t : Finset Cell) (cell : Cell)
    (p o : Player) (_hp : ReachInv p o) (ho : ReachInv o p) :
    ReachInv (Game.resolve_turn prefs t cell p o).1 (Game.resolve_turn prefs t cell p o).2 ∧
    ReachInv (Game.resolve_turn prefs t cell p o).2 (Game.resolve_turn prefs t cell p o).1 := by
  unfold Game.resolve_turn
  by_cases h1 : cell ∈ o.units
  · simp only [if_pos h1]
    constructor
    · intro c hc
      have h := rebuild_reach_not prefs t _ _ hc
      simpa [rebuild_units, rebuild_walls] using h
    · intro c hc
      have h := rebuild_reach_not prefs t
        { o with units := o.units.erase cell }
        { p with walls := insert cell p.walls } hc
      constructor
      · simpa [rebuild_units] using h.1
      constructor
      · simpa [rebuild_walls] using h.2.1
      · simpa [rebuild_walls] using h.2.2
  · simp only [if_neg h1]
    by_cases h2 : cell ∈ t
    · simp only [if_pos h2]
      constructor
      · intro c hc
        have h := rebuild_reach_not prefs t _ _ hc
        simpa [rebuild_units, rebuild_walls] using h
      · intro c hc
        simp only at hc
        have hcr : c ∈ o.reachable := Finset.mem_of_mem_erase hc
        have hne : c ≠ cell := Finset.ne_of_mem_erase hc
        have h := ho c hcr
        refine ⟨h.1, h.2.1, ?_⟩
        rw [rebuild_walls]
        simp only [Finset.mem_insert]
        rintro (rfl | hw)
        · exact hne rfl
        · exact h.2.2 hw
    · simp only [if_neg h2]
      constructor
      · intro c hc
        have h := rebuild_reach_not prefs t { p with units := insert cell p.units } o hc
        simpa [rebuild_units, rebuild_walls] using h
      · intro c hc
        have h := ho c hc
        refine ⟨h.1, h.2.1, ?_⟩
        rw [rebuild_walls]
        exact h.2.2

/-- `get_view` never changes the game state: whenever it succeeds, the state
component of its result is the input game. -/
lemma get_view_state {g : Game} {pid : String} {p : GameView × Game}
    (h : g.get_view pid = some p) : p.2 = g := by
  unfold Game.get_view at h
  by_cases hc : pid = g.active_player.id ∨ pid = g.passive_player.id
  · simp only [if_pos hc] at h
    cases h
    rfl
  · simp only [if_neg hc] at h
    cases h

/-- The bot round preserves the mutual reachable-set invariant. -/
lemma botLoop_inv (bot : GameView → Int → Cell) :
    ∀ (n : Nat) (g : Game), g.Inv →
      (Game.botLoop bot n g).2.Inv := by
  intro n
  induction n with
  | zero => intro g hg; exact hg
  | succ n ih =>
    intro g hg
    rw [Game.botLoop]
    by_cases h0 : g.passive_player.reachable = ∅
    · simp only [if_pos h0]
      exact ⟨fun c hc => hg.1 c hc, fun c hc => hg.2 c hc⟩
    · simp only [if_neg h0]
      cases hv : g.get_view g.passive_player.id with
      | none => exact hg
      | some p =>
        obtain ⟨view, g1⟩ := p
        have hg1 : g1 = g := get_view_state hv
        subst hg1
        by_cases hcell : bot view g1.turns_left ∈ g1.passive_player.reachable
        · simp only [if_pos hcell]
          apply ih
          have h := resolve_turn_reachInv g1.preferences g1.trenches
            (bot view g1.turns_left) g1.passive_player g1.active_player hg.2 hg.1
          exact ⟨h.2, h.1⟩
        · simp only [if_neg hcell]
          exact hg

/-- The bookkeeping helpers do not touch the players' sets, so they preserve
the invariant. -/
lemma tickTurn_inv {g : Game} (hg : g.Inv) : g.tickTurn.Inv := hg

lemma deathmatchBump_inv {g : Game} (hg : g.Inv) : g.deathmatchBump.Inv := by
  unfold Game.deathmatchBump
  split
  · exact hg
  · exact hg

lemma resetTurns_inv {g : Game} (hg : g.Inv) : g.resetTurns.Inv := hg

lemma swapPlayers_inv {g : Game} (hg : g.Inv) : g.swapPlayers.Inv := ⟨hg.2, hg.1⟩

lemma defeatCheck_inv {g : Game} (hg : g.Inv) : g.defeatCheck.Inv := by
  unfold Game.defeatCheck
  split
  · exact ⟨fun c hc => hg.1 c hc, fun c hc => hg.2 c hc⟩
  · exact hg

/-- `Game._decrement_turns` preserves the mutual reachable-set invariant. -/
lemma decrement_turns_inv (bot : GameView → Int → Cell) (g : Game) (hg : g.Inv) :
    (Game.decrement_turns bot g).2.Inv := by
  unfold Game.decrement_turns
  have hzero : ∀ g3 : Game, g3.Inv → (Game.roundZero bot g3).2.Inv := by
    intro g3 hg3
    unfold Game.roundZero
    split
    · have hloop := botLoop_inv bot g3.preferences.turn_count.toNat g3 hg3
      cases hres : Game.botLoop bot g3.preferences.turn_count.toNat g3 with
      | mk e g4 =>
        rw [hres] at hloop
        cases e with
        | some err => exact hloop
        | none => exact resetTurns_inv (deathmatchBump_inv hloop)
    · exact swapPlayers_inv hg3
  split
  · rename_i e gE heq
    split at heq
    · have := hzero _ (resetTurns_inv (deathmatchBump_inv (tickTurn_inv hg)))
      rw [heq] at this
      exact this
    · cases heq
  · rename_i gO heq
    apply defeatCheck_inv
    split at heq
    · have := hzero _ (resetTurns_inv (deathmatchBump_inv (tickTurn_inv hg)))
      rw [heq] at this
      exact this
    · cases heq
      exact tickTurn_inv hg

/-- `ReachInv` only reads the opponent's walls, so it transfers along any
opponent with equal walls. -/
lemma reachInv_congr_walls {p o o' : Player} (hw : o'.walls = o.walls)
    (h : ReachInv p o) : ReachInv p o' := by
  intro c hc
  have := h c hc
  rw [hw]
  exact this

/-- `make_turn` preserves the mutual reachable-set invariant (also on the
states left behind by a rejected or aborted call). -/
lemma make_turn_inv (bot : GameView → Int → Cell) (g : Game) (pid : String)
    (cell : Cell) (hg : g.Inv) : (g.make_turn bot pid cell).2.Inv := by
  unfold Game.make_turn
  split
  · exact hg
  · apply decrement_turns_inv
    have h := resolve_turn_reachInv g.preferences g.trenches cell
      g.active_player g.passive_player hg.1 hg.2
    exact ⟨h.1, h.2⟩

/-- `init` establishes the mutual reachable-set invariant whenever it
succeeds. -/
lemma init_inv {g g' : Game} {r1 r2 : Nat} {randT : Cell → Nat}
    (h : g.init r1 r2 randT = some g') : g'.Inv := by
  unfold Game.init at h
  by_cases hne : g.active_player.id = g.passive_player.id
  · simp only [if_pos hne] at h
    cases h
  · simp only [if_neg hne, Option.some.injEq] at h
    subst h
    constructor
    · exact reachInv_congr_walls (rebuild_walls _ _ _ _) (rebuild_reachInv _ _ _ _)
    · exact rebuild_reachInv _ _ _ _

/-- Every reachable game state satisfies the mutual reachable-set invariant. -/
lemma reaches_inv {g : Game} (h : Reaches g) : g.Inv := by
  induction h with
  | init_reached gid prefs aid pid r1 r2 randT g' hinit => exact init_inv hinit
  | step g bot pid cell g' _ hstep ih =>
    have := make_turn_inv bot g pid cell ih
    rw [hstep] at this
    exact this

/-! ### Concrete instances used to witness theorems with hypotheses -/

/-- A concrete geometry for a 2×2 board: every cell is adjacent to all four
board cells (the geometry provider is external; any instance works). -/
def adjW : Cell → Finset Cell := fun _ => {(1, 1), (1, 2), (2, 1), (2, 2)}

/-- Concrete preferences: 2×2 board, one move per round, all modes off. -/
def prefsW : GamePreferences :=
  { size := 2, turn_count := 1, is_deathmatch := false, is_against_bot := false,
    is_double_base := false, is_with_random_bases := false,
    is_visibility_applied := false, trench_density_percent := 0,
    get_adjacent_cells := adjW, get_symmetric_cell := pointMirror 2 }

/-- A concrete fresh game over `prefsW`. -/
def gW : Game := Game.fresh "g" prefsW "a" "b"

/-- C1: in every game state reachable by `init()` followed by any sequence of
successful `make_turn` calls, each player's reachable set contains no cell of
that player's own units and no cell of the opponent's walls. -/
theorem claim_C1_reachable_disjoint (g : Game) (h : Reaches g) :
    g.active_player.reachable ∩ g.active_player.units = ∅ ∧
    g.active_player.reachable ∩ g.passive_player.walls = ∅ ∧
    g.passive_player.reachable ∩ g.passive_player.units = ∅ ∧
    g.passive_player.reachable ∩ g.active_player.walls = ∅ := by
  have hi := reaches_inv h
  refine ⟨?_, ?_, ?_, ?_⟩ <;> rw [Finset.eq_empty_iff_forall_not_mem]
  · intro c hc
    rw [Finset.mem_inter] at hc
    exact (hi.1 c hc.1).1 hc.2
  · intro c hc
    rw [Finset.mem_inter] at hc
    exact (hi.1 c hc.1).2.2 hc.2
  · intro c hc
    rw [Finset.mem_inter] at hc
    exact (hi.2 c hc.1).1 hc.2
  · intro c hc
    rw [Finset.mem_inter] at hc
    exact (hi.2 c hc.1).2.2 hc.2

/-- Witness for C1 at a concrete reachable state (the initialized 2×2 game). -/
theorem claim_C1_reachable_disjoint_witness :
    ∃ g', gW.init 0 0 (fun _ => 0) = some g' ∧
      (g'.active_player.reachable ∩ g'.active_player.units = ∅ ∧
       g'.active_player.reachable ∩ g'.passive_player.walls = ∅ ∧
       g'.passive_player.reachable ∩ g'.passive_player.units = ∅ ∧
       g'.passive_player.reachable ∩ g'.active_player.walls = ∅) := by
  have hs : (gW.init 0 0 (fun _ => 0)).isSome = true := by decide
  refine ⟨_, (Option.some_get hs).symm, ?_⟩
  exact claim_C1_reachable_disjoint _
    (Reaches.init_reached "g" prefsW "a" "b" 0 0 (fun _ => 0) _ (Option.some_get hs).symm)

/-! ### C2: the IllegalTurn condition and atomicity of rejection -/

/-- The bot round only ever signals the fatal assertion, never an
`IllegalTurnException`. -/
lemma botLoop_err (bot : GameView → Int → Cell) :
    ∀ (n : Nat) (g : Game),
      (Game.botLoop bot n g).1 = none ∨ (Game.botLoop bot n g).1 = some .assertionFailed := by
  intro n
  induction n with
  | zero => intro g; exact Or.inl rfl
  | succ n ih =>
    intro g
    rw [Game.botLoop]
    by_cases h0 : g.passive_player.reachable = ∅
    · rw [if_pos h0]
      exact Or.inl rfl
    · rw [if_neg h0]
      cases hv : g.get_view g.passive_player.id with
      | none => exact Or.inr rfl
      | some p =>
        obtain ⟨view, g1⟩ := p
        by_cases hcell : bot view g1.turns_left ∈ g1.passive_player.reachable
        · simp only [if_pos hcell]
          exact ih _
        · simp only [if_neg hcell]
          simp

/-- The zero-countdown branch never signals an `IllegalTurnException`. -/
lemma roundZero_err (bot : GameView → Int → Cell) (g3 : Game) :
    (Game.roundZero bot g3).1 = none ∨
      (Game.roundZero bot g3).1 = some .assertionFailed := by
  unfold Game.roundZero
  split
  · cases hres : Game.botLoop bot g3.preferences.turn_count.toNat g3 with
    | mk e g4 =>
      have h := botLoop_err bot g3.preferences.turn_count.toNat g3
      rw [hres] at h
      cases e with
      | none => exact Or.inl rfl
      | some err =>
        rcases h with h | h
        · cases h
        · simp only [Option.some.injEq] at h
          subst h
          exact Or.inr rfl
  · exact Or.inl rfl

/-- `_decrement_turns` never signals an `IllegalTurnException`. -/
lemma decrement_turns_err (bot : GameView → Int → Cell) (g : Game) :
    (Game.decrement_turns bot g).1 = none ∨
      (Game.decrement_turns bot g).1 = some .assertionFailed := by
  unfold Game.decrement_turns
  split
  · rename_i e gE heq
    split at heq
    · have h := roundZero_err bot (g.tickTurn.deathmatchBump.resetTurns)
      rw [heq] at h
      simpa using h
    · cases heq
  · exact Or.inl rfl

/-- C2: `make_turn` raises `IllegalTurnException` exactly when the submitter
is not the active player, the cell is not in the active player's reachable
set, or a player can no longer win; and a rejected call leaves the game state
exactly as it was (no field of the game or of either player is mutated). -/
theorem claim_C2_illegal_turn (bot : GameView → Int → Cell) (g : Game)
    (pid : String) (cell : Cell) :
    (g.make_turn bot pid cell = (some (.illegalTurn g.id pid cell), g) ↔
      illegalCond g pid cell) ∧
    (∀ a b c, (g.make_turn bot pid cell).1 = some (.illegalTurn a b c) →
      illegalCond g pid cell ∧ a = g.id ∧ b = pid ∧ c = cell) := by
  constructor
  · constructor
    · intro h
      by_contra hc
      unfold Game.make_turn at h
      rw [if_neg hc] at h
      have herr := decrement_turns_err bot
        { g with
          active_player := (Game.resolve_turn g.preferences g.trenches cell
            g.active_player g.passive_player).1,
          passive_player := (Game.resolve_turn g.preferences g.trenches cell
            g.active_player g.passive_player).2 }
      rw [h] at herr
      rcases herr with h' | h' <;> cases h'
    · intro h
      unfold Game.make_turn
      rw [if_pos h]
  · intro a b c h
    by_cases hc : illegalCond g pid cell
    · unfold Game.make_turn at h
      rw [if_pos hc] at h
      simp only [Option.some.injEq, GameError.illegalTurn.injEq] at h
      exact ⟨hc, h.1.symm, h.2.1.symm, h.2.2.symm⟩
    · exfalso
      unfold Game.make_turn at h
      rw [if_neg hc] at h
      have herr := decrement_turns_err bot
        { g with
          active_player := (Game.resolve_turn g.preferences g.trenches cell
            g.active_player g.passive_player).1,
          passive_player := (Game.resolve_turn g.preferences g.trenches cell
            g.active_player g.passive_player).2 }
      rw [h] at herr
      rcases herr with h' | h' <;> cases h'

/-- Witness for C2 at a concrete rejected call: the fresh 2×2 game rejects a
move to a cell outside the (empty) reachable set and is left unchanged. -/
theorem claim_C2_illegal_turn_witness :
    gW.make_turn (fun _ _ => (1, 2)) "a" (1, 1) =
      (some (.illegalTurn "g" "a" (1, 1)), gW) :=
  (claim_C2_illegal_turn (fun _ _ => (1, 2)) gW "a" (1, 1)).1.mpr (by decide)

/-! ### C3: classification of a resolved move -/

/-- Shared description of the three mutually exclusive branches of
`Game._make_turn`, in their fixed evaluation order. -/
lemma resolve_turn_cases (prefs : GamePreferences) (t : Finset Cell) (cell : Cell)
    (p o : Player) :
    (cell ∈ o.units →
      (Game.resolve_turn prefs t cell p o).2 =
        Game.rebuild_reachable_set prefs t { o with units := o.units.erase cell }
          { p with walls := insert cell p.walls } ∧
      (Game.resolve_turn prefs t cell p o).1 =
        Game.rebuild_reachable_set prefs t { p with walls := insert cell p.walls }
          (Game.resolve_turn prefs t cell p o).2) ∧
    (cell ∉ o.units → cell ∈ t →
      (Game.resolve_turn prefs t cell p o).2 =
        { o with reachable := o.reachable.erase cell } ∧
      (Game.resolve_turn prefs t cell p o).1 =
        Game.rebuild_reachable_set prefs t { p with walls := insert cell p.walls }
          { o with reachable := o.reachable.erase cell }) ∧
    (cell ∉ o.units → cell ∉ t →
      (Game.resolve_turn prefs t cell p o).2 = o ∧
      (Game.resolve_turn prefs t cell p o).1 =
        Game.rebuild_reachable_set prefs t { p with units := insert cell p.units } o) := by
  refine ⟨fun h1 => ?_, fun h1 h2 => ?_, fun h1 h2 => ?_⟩
  · unfold Game.resolve_turn
    rw [if_pos h1]
    exact ⟨rfl, rfl⟩
  · unfold Game.resolve_turn
    rw [if_neg h1, if_pos h2]
    exact ⟨rfl, rfl⟩
  · unfold Game.resolve_turn
    rw [if_neg h1, if_neg h2]
    exact ⟨rfl, rfl⟩

/-- C3: a resolved move classifies the chosen cell in the fixed order
capture → trench → expand, each branch exclusive of the others: a capture
removes the cell from the opponent's units, adds it to the mover's walls and
rebuilds the opponent's reachable set; a trench claim adds the cell to the
mover's walls and only discards it from the opponent's reachable set (no
opponent rebuild — the rest of the opponent's record is untouched); otherwise
the cell joins the mover's units; and in every branch the mover's own
reachable set is rebuilt afterwards. -/
theorem claim_C3_turn_classification (prefs : GamePreferences) (t : Finset Cell)
    (cell : Cell) (p o : Player) :
    (cell ∈ o.units →
      (Game.resolve_turn prefs t cell p o).2.units = o.units.erase cell ∧
      (Game.resolve_turn prefs t cell p o).1.walls = insert cell p.walls ∧
      (Game.resolve_turn prefs t cell p o).1.units = p.units ∧
      (Game.resolve_turn prefs t cell p o).2 =
        Game.rebuild_reachable_set prefs t { o with units := o.units.erase cell }
          { p with walls := insert cell p.walls } ∧
      (Game.resolve_turn prefs t cell p o).1 =
        Game.rebuild_reachable_set prefs t { p with walls := insert cell p.walls }
          (Game.resolve_turn prefs t cell p o).2) ∧
    (cell ∉ o.units → cell ∈ t →
      (Game.resolve_turn prefs t cell p o).1.walls = insert cell p.walls ∧
      (Game.resolve_turn prefs t cell p o).1.units = p.units ∧
      (Game.resolve_turn prefs t cell p o).2 =
        { o with reachable := o.reachable.erase cell } ∧
      (Game.resolve_turn prefs t cell p o).1 =
        Game.rebuild_reachable_set prefs t { p with walls := insert cell p.walls }
          { o with reachable := o.reachable.erase cell }) ∧
    (cell ∉ o.units → cell ∉ t →
      (Game.resolve_turn prefs t cell p o).1.units = insert cell p.units ∧
      (Game.resolve_turn prefs t cell p o).1.walls = p.walls ∧
      (Game.resolve_turn prefs t cell p o).2 = o ∧
      (Game.resolve_turn prefs t cell p o).1 =
        Game.rebuild_reachable_set prefs t { p with units := insert cell p.units } o) := by
  obtain ⟨hcap, htr, hexp⟩ := resolve_turn_cases prefs t cell p o
  refine ⟨fun h1 => ?_, fun h1 h2 => ?_, fun h1 h2 => ?_⟩
  · obtain ⟨h2', h1'⟩ := hcap h1
    refine ⟨?_, ?_, ?_, h2', h1'⟩
    · rw [h2', rebuild_units]
    · rw [h1', rebuild_walls]
    · rw [h1', rebuild_units]
  · obtain ⟨h2', h1'⟩ := htr h1 h2
    refine ⟨?_, ?_, h2', h1'⟩
    · rw [h1', rebuild_walls]
    · rw [h1', rebuild_units]
  · obtain ⟨h2', h1'⟩ := hexp h1 h2
    refine ⟨?_, ?_, h2', h1'⟩
    · rw [h1', rebuild_units]
    · rw [h1', rebuild_walls]

/-- Concrete players used to witness the capture branch. -/
def pX : Player := { freshPlayer "a" with units := {(1, 1)} }

def oX : Player := { freshPlayer "b" with units := {(1, 2)} }

/-- Witness for C3 at a concrete capture: the chosen cell is an opponent
unit; it leaves the opponent's units and becomes a wall of the mover. -/
theorem claim_C3_turn_classification_witness :
    (1, 2) ∈ oX.units ∧
      ((Game.resolve_turn prefsW ∅ (1, 2) pX oX).2.units = oX.units.erase (1, 2) ∧
       (Game.resolve_turn prefsW ∅ (1, 2) pX oX).1.walls = insert (1, 2) pX.walls ∧
       (Game.resolve_turn prefsW ∅ (1, 2) pX oX).1.units = pX.units ∧
       (Game.resolve_turn prefsW ∅ (1, 2) pX oX).2 =
         Game.rebuild_reachable_set prefsW ∅ { oX with units := oX.units.erase (1, 2) }
           { pX with walls := insert (1, 2) pX.walls } ∧
       (Game.resolve_turn prefsW ∅ (1, 2) pX oX).1 =
         Game.rebuild_reachable_set prefsW ∅ { pX with walls := insert (1, 2) pX.walls }
           (Game.resolve_turn prefsW ∅ (1, 2) pX oX).2) :=
  ⟨by decide, (claim_C3_turn_classification prefsW ∅ (1, 2) pX oX).1 (by decide)⟩

/-! ### C4: territory accounting of a legal move -/

/-- C4: a legal capture shrinks the opponent's units by exactly one and grows
the capturer's walls by exactly one; and any legal move leaves the total
territory `|units| + |walls|` over both players non-decreasing. -/
theorem claim_C4_territory_accounting (g : Game) (h : Reaches g) (cell : Cell)
    (hcell : cell ∈ g.active_player.reachable) :
    (cell ∈ g.passive_player.units →
      (Game.resolve_turn g.preferences g.trenches cell g.active_player
          g.passive_player).2.units.card + 1 = g.passive_player.units.card ∧
      (Game.resolve_turn g.preferences g.trenches cell g.active_player
          g.passive_player).1.walls.card = g.active_player.walls.card + 1) ∧
    g.active_player.units.card + g.active_player.walls.card +
        g.passive_player.units.card + g.passive_player.walls.card ≤
      (Game.resolve_turn g.preferences g.trenches cell g.active_player
          g.passive_player).1.units.card +
        (Game.resolve_turn g.preferences g.trenches cell g.active_player
          g.passive_player).1.walls.card +
        (Game.resolve_turn g.preferences g.trenches cell g.active_player
          g.passive_player).2.units.card +
        (Game.resolve_turn g.preferences g.trenches cell g.active_player
          g.passive_player).2.walls.card := by
  have hinv := (reaches_inv h).1 cell hcell
  obtain ⟨hcu, hcw, how⟩ := hinv
  obtain ⟨hcap, htr, hexp⟩ := resolve_turn_cases g.preferences g.trenches cell
    g.active_player g.passive_player
  by_cases h1 : cell ∈ g.passive_player.units
  · obtain ⟨h2', h1'⟩ := hcap h1
    have hou : (Game.resolve_turn g.preferences g.trenches cell g.active_player
        g.passive_player).2.units = g.passive_player.units.erase cell := by
      rw [h2', rebuild_units]
    have hunits : (Game.resolve_turn g.preferences g.trenches cell g.active_player
        g.passive_player).1.units = g.active_player.units := by
      rw [h1', rebuild_units]
    have hwalls : (Game.resolve_turn g.preferences g.trenches cell g.active_player
        g.passive_player).1.walls = insert cell g.active_player.walls := by
      rw [h1', rebuild_walls]
    have hows : (Game.resolve_turn g.preferences g.trenches cell g.active_player
        g.passive_player).2.walls = g.passive_player.walls := by
      rw [h2', rebuild_walls]
    have hcard1 : (g.passive_player.units.erase cell).card + 1 =
        g.passive_player.units.card := Finset.card_erase_add_one h1
    have hcard2 : (insert cell g.active_player.walls).card =
        g.active_player.walls.card + 1 := Finset.card_insert_of_not_mem hcw
    constructor
    · intro _
      rw [hou, hwalls, hcard1, hcard2]
      exact ⟨rfl, rfl⟩
    · rw [hou, hunits, hwalls, hows, hcard2]
      omega
  · by_cases h2 : cell ∈ g.trenches
    · obtain ⟨h2', h1'⟩ := htr h1 h2
      have hunits : (Game.resolve_turn g.preferences g.trenches cell g.active_player
          g.passive_player).1.units = g.active_player.units := by
        rw [h1', rebuild_units]
      have hwalls : (Game.resolve_turn g.preferences g.trenches cell g.active_player
          g.passive_player).1.walls = insert cell g.active_player.walls := by
        rw [h1', rebuild_walls]
      have hcard2 : (insert cell g.active_player.walls).card =
          g.active_player.walls.card + 1 := Finset.card_insert_of_not_mem hcw
      have hou : (Game.resolve_turn g.preferences g.trenches cell g.active_player
          g.passive_player).2.units = g.passive_player.units := by rw [h2']
      have hows : (Game.resolve_turn g.preferences g.trenches cell g.active_player
          g.passive_player).2.walls = g.passive_player.walls := by rw [h2']
      refine ⟨fun hc => absurd hc h1, ?_⟩
      rw [hunits, hwalls, hou, hows, hcard2]
      omega
    · obtain ⟨h2', h1'⟩ := hexp h1 h2
      have hunits : (Game.resolve_turn g.preferences g.trenches cell g.active_player
          g.passive_player).1.units = insert cell g.active_player.units := by
        rw [h1', rebuild_units]
      have hwalls : (Game.resolve_turn g.preferences g.trenches cell g.active_player
          g.passive_player).1.walls = g.active_player.walls := by
        rw [h1', rebuild_walls]
      have hcard1 : (insert cell g.active_player.units).card =
          g.active_player.units.card + 1 := Finset.card_insert_of_not_mem hcu
      refine ⟨fun hc => absurd hc h1, ?_⟩
      rw [hunits, hwalls, h2', hcard1]
      omega

/-- The initialized 2×2 game (the result of `init()` on `gW`). -/
def gW1 : Game := (gW.init 0 0 (fun _ => 0)).getD gW

/-- Witness for C4 at a concrete legal move: an expansion move on the
initialized 2×2 game. -/
theorem claim_C4_territory_accounting_witness :
    gW.init 0 0 (fun _ => 0) = some gW1 ∧ (1, 2) ∈ gW1.active_player.reachable ∧
      gW1.active_player.units.card + gW1.active_player.walls.card +
          gW1.passive_player.units.card + gW1.passive_player.walls.card ≤
        (Game.resolve_turn gW1.preferences gW1.trenches (1, 2) gW1.active_player
            gW1.passive_player).1.units.card +
          (Game.resolve_turn gW1.preferences gW1.trenches (1, 2) gW1.active_player
            gW1.passive_player).1.walls.card +
          (Game.resolve_turn gW1.preferences gW1.trenches (1, 2) gW1.active_player
            gW1.passive_player).2.units.card +
          (Game.resolve_turn gW1.preferences gW1.trenches (1, 2) gW1.active_player
            gW1.passive_player).2.walls.card := by
  have hinit : gW.init 0 0 (fun _ => 0) = some gW1 := rfl
  have hcell : (1, 2) ∈ gW1.active_player.reachable := by decide
  refine ⟨hinit, hcell, ?_⟩
  exact (claim_C4_territory_accounting gW1
    (Reaches.init_reached "g" prefsW "a" "b" 0 0 (fun _ => 0) gW1 hinit)
    (1, 2) hcell).2

/-! ### C5: deathmatch escalation across a bot round -/

lemma tickTurn_preferences (g : Game) : g.tickTurn.preferences = g.preferences := rfl

lemma resetTurns_preferences (g : Game) : g.resetTurns.preferences = g.preferences := rfl

lemma resetTurns_turns_left (g : Game) :
    g.resetTurns.turns_left = g.preferences.turn_count := rfl

lemma defeatCheck_preferences (g : Game) : g.defeatCheck.preferences = g.preferences := by
  unfold Game.defeatCheck
  split <;> rfl

lemma defeatCheck_turns_left (g : Game) : g.defeatCheck.turns_left = g.turns_left := by
  unfold Game.defeatCheck
  split <;> rfl

lemma deathmatchBump_is_against_bot (g : Game) :
    g.deathmatchBump.preferences.is_against_bot = g.preferences.is_against_bot := by
  unfold Game.deathmatchBump
  split <;> rfl

lemma deathmatchBump_is_deathmatch (g : Game) :
    g.deathmatchBump.preferences.is_deathmatch = g.preferences.is_deathmatch := by
  unfold Game.deathmatchBump
  split <;> rfl

lemma deathmatchBump_turn_count (g : Game) (hd : g.preferences.is_deathmatch = true) :
    g.deathmatchBump.preferences.turn_count = g.preferences.turn_count + 1 := by
  unfold Game.deathmatchBump
  rw [if_pos hd]
  rfl

/-- The bot round never touches the preferences. -/
lemma botLoop_preferences (bot : GameView → Int → Cell) :
    ∀ (n : Nat) (g : Game), (Game.botLoop bot n g).2.preferences = g.preferences := by
  intro n
  induction n with
  | zero => intro g; rfl
  | succ n ih =>
    intro g
    rw [Game.botLoop]
    by_cases h0 : g.passive_player.reachable = ∅
    · rw [if_pos h0]
    · rw [if_neg h0]
      cases hv : g.get_view g.passive_player.id with
      | none => rfl
      | some p =>
        obtain ⟨view, g1⟩ := p
        have hg1 : g1 = g := get_view_state hv
        subst hg1
        by_cases hcell : bot view g1.turns_left ∈ g1.passive_player.reachable
        · simp only [if_pos hcell]
          exact ih _
        · simp only [if_neg hcell]

/-- Round bookkeeping after a deathmatch bot round: when `_decrement_turns`
hits zero with deathmatch and a bot opponent, and completes without error, the
turn allowance has grown by exactly two (once before the bot round, once
after) and the countdown is reset to the new allowance. -/
lemma decrement_turns_deathmatch_bot (bot : GameView → Int → Cell) (g : Game)
    (hd : g.preferences.is_deathmatch = true)
    (hb : g.preferences.is_against_bot = true)
    (ht : g.turns_left = 1) (g' : Game)
    (hres : Game.decrement_turns bot g = (none, g')) :
    g'.preferences.turn_count = g.preferences.turn_count + 2 ∧
      g'.turns_left = g.preferences.turn_count + 2 := by
  unfold Game.decrement_turns at hres
  have h0 : g.tickTurn.turns_left = 0 := by
    show g.turns_left - 1 = 0
    rw [ht]
    rfl
  rw [if_pos h0] at hres
  unfold Game.roundZero at hres
  have hXb : (g.tickTurn.deathmatchBump.resetTurns).preferences.is_against_bot = true := by
    rw [resetTurns_preferences]
    rw [show g.tickTurn.deathmatchBump.preferences.is_against_bot =
      g.tickTurn.preferences.is_against_bot from deathmatchBump_is_against_bot _]
    exact hb
  rw [if_pos hXb] at hres
  cases hbl : Game.botLoop bot
      (g.tickTurn.deathmatchBump.resetTurns).preferences.turn_count.toNat
      (g.tickTurn.deathmatchBump.resetTurns) with
  | mk eb g4 =>
    rw [hbl] at hres
    cases eb with
    | some err => cases hres
    | none =>
      simp only at hres
      cases hres
      have hg4p : g4.preferences = (g.tickTurn.deathmatchBump.resetTurns).preferences := by
        have := botLoop_preferences bot
          (g.tickTurn.deathmatchBump.resetTurns).preferences.turn_count.toNat
          (g.tickTurn.deathmatchBump.resetTurns)
        rw [hbl] at this
        exact this
      have hXtc : (g.tickTurn.deathmatchBump.resetTurns).preferences.turn_count =
          g.preferences.turn_count + 1 := by
        rw [resetTurns_preferences]
        exact deathmatchBump_turn_count _ hd
      have hg4d : g4.preferences.is_deathmatch = true := by
        rw [hg4p, resetTurns_preferences,
          show g.tickTurn.deathmatchBump.preferences.is_deathmatch =
            g.tickTurn.preferences.is_deathmatch from deathmatchBump_is_deathmatch _]
        exact hd
      constructor
      · rw [defeatCheck_preferences, resetTurns_preferences,
          deathmatchBump_turn_count _ hg4d, hg4p, hXtc]
        omega
      · rw [defeatCheck_turns_left, resetTurns_turns_left,
          deathmatchBump_turn_count _ hg4d, hg4p, hXtc]
        omega

/-- C5: in a deathmatch game against a bot, a human `make_turn` that brings
`turns_left` to zero and returns without error leaves `turn_count` exactly two
higher than before the call (one escalation before the bot round, one after)
and `turns_left` reset to the new `turn_count`. -/
theorem claim_C5_deathmatch_escalation (bot : GameView → Int → Cell) (g : Game)
    (pid : String) (cell : Cell) (g' : Game)
    (hd : g.preferences.is_deathmatch = true)
    (hb : g.preferences.is_against_bot = true)
    (ht : g.turns_left = 1)
    (hres : g.make_turn bot pid cell = (none, g')) :
    g'.preferences.turn_count = g.preferences.turn_count + 2 ∧
      g'.turns_left = g'.preferences.turn_count := by
  unfold Game.make_turn at hres
  by_cases hill : illegalCond g pid cell
  · rw [if_pos hill] at hres
    cases hres
  · rw [if_neg hill] at hres
    have h := decrement_turns_deathmatch_bot bot
      { g with
        active_player := (Game.resolve_turn g.preferences g.trenches cell
          g.active_player g.passive_player).1,
        passive_player := (Game.resolve_turn g.preferences g.trenches cell
          g.active_player g.passive_player).2 }
      hd hb ht g' hres
    exact ⟨h.1, by rw [h.2, h.1]⟩

/-- Concrete deathmatch-against-bot preferences on the 2×2 board. -/
def prefsD : GamePreferences :=
  { size := 2, turn_count := 1, is_deathmatch := true, is_against_bot := true,
    is_double_base := false, is_with_random_bases := false,
    is_visibility_applied := false, trench_density_percent := 0,
    get_adjacent_cells := adjW, get_symmetric_cell := pointMirror 2 }

/-- The initialized deathmatch game. -/
def gD1 : Game :=
  ((Game.fresh "d" prefsD "a" "b").init 0 0 (fun _ => 0)).getD
    (Game.fresh "d" prefsD "a" "b")

/-- A concrete opponent policy that plays a legal cell on each of its two
moves in the witness scenario. -/
def botD : GameView → Int → Cell := fun _ tl => if tl = 2 then (2, 1) else (1, 1)

/-- Witness for C5: on the initialized deathmatch bot game with
`turn_count = 1`, the human move returns without error, `turn_count` ends at
3 = 1 + 2 and `turns_left` is reset to it. -/
theorem claim_C5_deathmatch_escalation_witness :
    gD1.preferences.is_deathmatch = true ∧ gD1.preferences.is_against_bot = true ∧
      gD1.turns_left = 1 ∧
      ((gD1.make_turn botD "a" (1, 2)).2.preferences.turn_count =
          gD1.preferences.turn_count + 2 ∧
        (gD1.make_turn botD "a" (1, 2)).2.turns_left =
          (gD1.make_turn botD "a" (1, 2)).2.preferences.turn_count) := by
  refine ⟨rfl, rfl, by decide, ?_⟩
  exact claim_C5_deathmatch_escalation botD gD1 "a" (1, 2) _ rfl rfl (by decide) rfl

/-! ### C6: trenches come in point-symmetric pairs -/

/-- Field description of a successful `init()`. -/
lemma init_spec {g g' : Game} {r1 r2 : Nat} {randT : Cell → Nat}
    (h : g.init r1 r2 randT = some g') :
    g'.preferences = g.preferences ∧
      g'.active_player.units = initActiveUnits g.preferences g.active_player.units r1 r2 ∧
      g'.passive_player.units = initPassiveUnits g.preferences g.passive_player.units r1 r2 ∧
      g'.trenches = Game.generate_trenches g.preferences
        (initActiveUnits g.preferences g.active_player.units r1 r2)
        (initPassiveUnits g.preferences g.passive_player.units r1 r2) randT ∧
      g'.turns_left = g.preferences.turn_count := by
  unfold Game.init at h
  by_cases hne : g.active_player.id = g.passive_player.id
  · rw [if_pos hne] at h
    cases h
  · rw [if_neg hne, Option.some.injEq] at h
    subst h
    exact ⟨rfl, rebuild_units _ _ _ _, rebuild_units _ _ _ _, rfl, rfl⟩

/-- Mirroring a generated trench cell stays inside the generated trench set:
the candidate and its point mirror are always yielded together. -/
lemma generate_trenches_mirror (prefs : GamePreferences) (aU pU : Finset Cell)
    (randT : Cell → Nat) (c : Cell)
    (hc : c ∈ Game.generate_trenches prefs aU pU randT) :
    pointMirror prefs.size c ∈ Game.generate_trenches prefs aU pU randT := by
  unfold Game.generate_trenches at hc ⊢
  by_cases hden : prefs.trench_density_percent = 0
  · rw [if_pos hden] at hc
    exact absurd hc (Finset.not_mem_empty c)
  · rw [if_neg hden] at hc ⊢
    rw [Finset.mem_biUnion] at hc ⊢
    obtain ⟨q, hq, hcq⟩ := hc
    refine ⟨q, hq, ?_⟩
    have hqb := (Finset.mem_filter.mp hq).1
    rw [Finset.mem_product, Finset.mem_range, Finset.mem_range] at hqb
    obtain ⟨hx, hy⟩ := hqb
    rw [Finset.mem_insert, Finset.mem_singleton] at hcq ⊢
    rcases hcq with rfl | rfl
    · right
      simp only [pointMirror, Prod.mk.injEq]
      constructor <;> omega
    · left
      simp only [pointMirror, Prod.mk.injEq]
      constructor <;> omega

/-- C6: for every preferences value and every outcome of the random source,
the trench set produced by `init()` is closed under the point-symmetric
mirror: if `c` is a trench, so is `mirror(c)`. -/
theorem claim_C6_trench_mirror_closed (g : Game) (r1 r2 : Nat) (randT : Cell → Nat)
    (g' : Game) (hinit : g.init r1 r2 randT = some g') (c : Cell)
    (hc : c ∈ g'.trenches) :
    pointMirror g'.preferences.size c ∈ g'.trenches := by
  obtain ⟨hp, _, _, htr, _⟩ := init_spec hinit
  rw [htr] at hc ⊢
  rw [hp]
  exact generate_trenches_mirror _ _ _ _ _ hc

/-- Preferences that actually generate trenches: 4×4 board, density 100. -/
def prefsT : GamePreferences :=
  { size := 4, turn_count := 1, is_deathmatch := false, is_against_bot := false,
    is_double_base := false, is_with_random_bases := false,
    is_visibility_applied := false, trench_density_percent := 100,
    get_adjacent_cells := fun _ => ∅, get_symmetric_cell := pointMirror 4 }

/-- The initialized trench game. -/
def gT1 : Game :=
  ((Game.fresh "t" prefsT "a" "b").init 0 0 (fun _ => 0)).getD
    (Game.fresh "t" prefsT "a" "b")

/-- Witness for C6: on the initialized 4×4 full-density game, `(2, 1)` is a
trench and so is its mirror `(3, 4)`. -/
theorem claim_C6_trench_mirror_closed_witness :
    (2, 1) ∈ gT1.trenches ∧ pointMirror gT1.preferences.size (2, 1) ∈ gT1.trenches :=
  ⟨by decide, claim_C6_trench_mirror_closed (Game.fresh "t" prefsT "a" "b") 0 0
    (fun _ => 0) gT1 rfl (2, 1) (by decide)⟩

/-! ### C7: double-base placement -/

/-- Double base with fixed (non-random) bases: both base rows are row 1. -/
def prefs7 : GamePreferences :=
  { size := 5, turn_count := 1, is_deathmatch := false, is_against_bot := false,
    is_double_base := true, is_with_random_bases := false,
    is_visibility_applied := false, trench_density_percent := 0,
    get_adjacent_cells := fun _ => ∅, get_symmetric_cell := pointMirror 5 }

/-- The initialized double-base, non-random game. -/
def g7I : Game :=
  ((Game.fresh "s" prefs7 "a" "b").init 0 0 (fun _ => 0)).getD
    (Game.fresh "s" prefs7 "a" "b")

/-- Counterexample to C7 as stated: with `is_double_base` enabled but random
bases disabled, both base placements coincide at `(1, 1)`, so the active
player's units after `init()` do not contain two distinct base cells. -/
theorem claim_C7_counterexample :
    prefs7.is_double_base = true ∧
      (Game.fresh "s" prefs7 "a" "b").init 0 0 (fun _ => 0) = some g7I ∧
      ¬∃ a b : Cell, a ∈ g7I.active_player.units ∧ b ∈ g7I.active_player.units ∧
        a ≠ b := by
  refine ⟨rfl, rfl, ?_⟩
  rintro ⟨a, b, ha, hb, hne⟩
  have hu : g7I.active_player.units = {(1, 1)} := by decide
  rw [hu, Finset.mem_singleton] at ha hb
  exact hne (ha.trans hb.symm)

lemma initFirstY_bounds (prefs : GamePreferences) (r1 : Nat) (hpos : 0 < prefs.size) :
    1 ≤ initFirstY prefs r1 ∧ initFirstY prefs r1 ≤ (prefs.size + 1) / 2 := by
  unfold initFirstY randint
  split
  · have h := Nat.mod_lt r1 (y := (prefs.size + 1) / 2 + 1 - 1) (by omega)
    omega
  · omega

lemma initSecondY_bounds (prefs : GamePreferences) (r2 : Nat) (hpos : 0 < prefs.size)
    (hrb : prefs.is_with_random_bases = true) :
    prefs.size / 2 + 1 ≤ initSecondY prefs r2 ∧ initSecondY prefs r2 ≤ prefs.size := by
  unfold initSecondY randint
  rw [if_pos hrb]
  have h := Nat.mod_lt r2 (y := prefs.size + 1 - (prefs.size / 2 + 1)) (by omega)
  omega

/-- C7 amended: with double base AND random bases enabled on a positive
even-sized board, the two base rows fall in disjoint halves, so after `init()`
each player's units contain two distinct base cells. (As stated the claim
fails: with random bases disabled both placements coincide — see the
counterexample — and on an odd-sized board the two random rows can both be the
middle row.) -/
theorem claim_C7_double_base_amended (g : Game) (r1 r2 : Nat) (randT : Cell → Nat)
    (g' : Game)
    (hdb : g.preferences.is_double_base = true)
    (hrb : g.preferences.is_with_random_bases = true)
    (heven : g.preferences.size % 2 = 0) (hpos : 0 < g.preferences.size)
    (hinit : g.init r1 r2 randT = some g') :
    ((1, initFirstY g.preferences r1) ∈ g'.active_player.units ∧
      (1, initSecondY g.preferences r2) ∈ g'.active_player.units ∧
      ((1, initFirstY g.preferences r1) : Cell) ≠ (1, initSecondY g.preferences r2)) ∧
    ((g.preferences.size, g.preferences.size - initFirstY g.preferences r1 + 1) ∈
        g'.passive_player.units ∧
      (g.preferences.size, g.preferences.size - initSecondY g.preferences r2 + 1) ∈
        g'.passive_player.units ∧
      ((g.preferences.size, g.preferences.size - initFirstY g.preferences r1 + 1) : Cell) ≠
        (g.preferences.size, g.preferences.size - initSecondY g.preferences r2 + 1)) := by
  obtain ⟨_, hau, hpu, _, _⟩ := init_spec hinit
  have hf := initFirstY_bounds g.preferences r1 hpos
  have hs := initSecondY_bounds g.preferences r2 hpos hrb
  have hfs : initFirstY g.preferences r1 ≠ initSecondY g.preferences r2 := by omega
  rw [hau, hpu]
  unfold initActiveUnits initPassiveUnits
  rw [if_pos hdb, if_pos hdb]
  refine ⟨⟨?_, ?_, ?_⟩, ?_, ?_, ?_⟩
  · simp only [Finset.mem_insert]
    tauto
  · simp only [Finset.mem_insert]
    tauto
  · simp only [ne_eq, Prod.mk.injEq, not_and]
    intro _
    exact hfs
  · simp only [Finset.mem_insert]
    tauto
  · simp only [Finset.mem_insert]
    tauto
  · simp only [ne_eq, Prod.mk.injEq, not_and]
    intro _
    omega

/-- Even-sized random double-base preferences. -/
def prefs8 : GamePreferences :=
  { size := 4, turn_count := 1, is_deathmatch := false, is_against_bot := false,
    is_double_base := true, is_with_random_bases := true,
    is_visibility_applied := false, trench_density_percent := 0,
    get_adjacent_cells := fun _ => ∅, get_symmetric_cell := pointMirror 4 }

/-- The initialized random double-base game (raw draws 0, 0). -/
def g8I : Game :=
  ((Game.fresh "s" prefs8 "a" "b").init 0 0 (fun _ => 0)).getD
    (Game.fresh "s" prefs8 "a" "b")

/-- Witness for the amended C7: on a 4×4 random double-base game, the two base
cells of each player are distinct. -/
theorem claim_C7_double_base_amended_witness :
    (1, initFirstY prefs8 0) ∈ g8I.active_player.units ∧
      (1, initSecondY prefs8 0) ∈ g8I.active_player.units ∧
      ((1, initFirstY prefs8 0) : Cell) ≠ (1, initSecondY prefs8 0) := by
  exact (claim_C7_double_base_amended (Game.fresh "s" prefs8 "a" "b") 0 0 (fun _ => 0)
    g8I rfl rfl (by decide) (by decide) rfl).1

/-! ### C8: get_view is read-only and idempotent -/

/-- C8: for a valid player id, `get_view` succeeds, returns the game state
unchanged, and calling it again on the returned state yields the very same
result (idempotence without an intervening move), in every mode including
fog-of-war. -/
theorem claim_C8_get_view_pure (g : Game) (pid : String)
    (h : pid = g.active_player.id ∨ pid = g.passive_player.id) :
    (∃ v : GameView, g.get_view pid = some (v, g)) ∧
      (g.get_view pid).bind (fun p => Game.get_view p.2 pid) = g.get_view pid := by
  have hsome : ∃ v : GameView, g.get_view pid = some (v, g) := by
    unfold Game.get_view
    rw [if_pos h]
    exact ⟨_, rfl⟩
  obtain ⟨v, hv⟩ := hsome
  refine ⟨⟨v, hv⟩, ?_⟩
  rw [hv]
  exact hv

/-- A fog-of-war variant of the 2×2 preferences, to witness C8 in visibility
mode. -/
def prefsV : GamePreferences :=
  { size := 2, turn_count := 1, is_deathmatch := false, is_against_bot := false,
    is_double_base := false, is_with_random_bases := false,
    is_visibility_applied := true, trench_density_percent := 0,
    get_adjacent_cells := adjW, get_symmetric_cell := pointMirror 2 }

/-- The initialized fog-of-war game. -/
def gV1 : Game :=
  ((Game.fresh "v" prefsV "a" "b").init 0 0 (fun _ => 0)).getD
    (Game.fresh "v" prefsV "a" "b")

/-- Witness for C8 on the initialized fog-of-war game. -/
theorem claim_C8_get_view_pure_witness :
    ("a" = gV1.active_player.id ∨ "a" = gV1.passive_player.id) ∧
      (∃ v : GameView, gV1.get_view "a" = some (v, gV1)) ∧
      (gV1.get_view "a").bind (fun p => Game.get_view p.2 "a") = gV1.get_view "a" :=
  ⟨by decide, (claim_C8_get_view_pure gV1 "a" (by decide)).1,
    (claim_C8_get_view_pure gV1 "a" (by decide)).2⟩

/-! ### C9: termination of the frontier loop -/

/-- The unfolding equation of one loop pass. -/
lemma floodLoop_succ (prefs : GamePreferences) (trenches pu pw ow : Finset Cell)
    (vis : Bool) (fuel : Nat) (S R vo vt : Finset Cell) :
    floodLoop prefs trenches pu pw ow vis (fuel + 1) S R vo vt =
      if newSources prefs pw S = ∅ then
        (S, R ∪ reachAdd prefs pu pw ow S,
          (if vis then vo ∪ adjSet prefs S else vo),
          (if vis then
              vt ∪ (adjSet prefs S).filter (fun c => c ∈ trenches)
                ∪ ((adjSet prefs S).filter (fun c => c ∈ trenches)).image
                    prefs.get_symmetric_cell
            else vt))
      else
        floodLoop prefs trenches pu pw ow vis fuel (S ∪ newSources prefs pw S)
          (R ∪ reachAdd prefs pu pw ow S)
          (if vis then vo ∪ adjSet prefs S else vo)
          (if vis then
              vt ∪ (adjSet prefs S).filter (fun c => c ∈ trenches)
                ∪ ((adjSet prefs S).filter (fun c => c ∈ trenches)).image
                    prefs.get_symmetric_cell
            else vt) := rfl

/-- Fuel-independence of the loop past the frontier bound: the loop reaches
its fixed point in at most `|pu ∪ pw| - |S|` continuing passes. -/
lemma floodLoop_fuel_stable (prefs : GamePreferences) (trenches pu pw ow : Finset Cell)
    (vis : Bool) :
    ∀ (f1 : Nat) (S R vo vt : Finset Cell) (f2 : Nat), S ⊆ pu ∪ pw →
      (pu ∪ pw).card - S.card < f1 → (pu ∪ pw).card - S.card < f2 →
      floodLoop prefs trenches pu pw ow vis f1 S R vo vt =
        floodLoop prefs trenches pu pw ow vis f2 S R vo vt := by
  intro f1
  induction f1 with
  | zero => intro S R vo vt f2 hS h1 h2; omega
  | succ f1 ih =>
    intro S R vo vt f2 hS h1 h2
    cases f2 with
    | zero => omega
    | succ f2 =>
      rw [floodLoop_succ, floodLoop_succ]
      by_cases hns : newSources prefs pw S = ∅
      · rw [if_pos hns, if_pos hns]
      · rw [if_neg hns, if_neg hns]
        have hdisj : Disjoint S (newSources prefs pw S) := by
          rw [Finset.disjoint_right]
          intro a ha
          exact (mem_newSources ha).1
        have hnsw : newSources prefs pw S ⊆ pu ∪ pw := by
          intro a ha
          exact Finset.mem_union_right _ (mem_newSources ha).2
        have hsub : S ∪ newSources prefs pw S ⊆ pu ∪ pw := Finset.union_subset hS hnsw
        have hcard : (S ∪ newSources prefs pw S).card =
            S.card + (newSources prefs pw S).card := Finset.card_union_of_disjoint hdisj
        have hpos : 0 < (newSources prefs pw S).card :=
          Finset.card_pos.mpr (Finset.nonempty_iff_ne_empty.mpr hns)
        have hle : (S ∪ newSources prefs pw S).card ≤ (pu ∪ pw).card :=
          Finset.card_le_card hsub
        exact ih _ _ _ _ f2 hsub (by omega) (by omega)

/-- C9: the frontier loop of the reachability rebuild terminates on every
input: a pass adds only wall cells not already in the frontier (each cell
enters the frontier at most once), the frontier stays inside
`units ∪ walls`, grows strictly on each continuing pass, and consequently the
loop's result is already its fixed point at fuel `|units ∪ walls| + 1 - |S|` —
larger fuel never changes the outcome. -/
theorem claim_C9_flood_termination (prefs : GamePreferences)
    (trenches pu pw ow : Finset Cell) (vis : Bool) (S R vo vt : Finset Cell)
    (hS : S ⊆ pu ∪ pw) :
    newSources prefs pw S ∩ S = ∅ ∧
      S ∪ newSources prefs pw S ⊆ pu ∪ pw ∧
      (newSources prefs pw S ≠ ∅ → S ⊂ S ∪ newSources prefs pw S) ∧
      ∀ fuel : Nat, (pu ∪ pw).card + 1 - S.card ≤ fuel →
        floodLoop prefs trenches pu pw ow vis fuel S R vo vt =
          floodLoop prefs trenches pu pw ow vis ((pu ∪ pw).card + 1 - S.card)
            S R vo vt := by
  have hcardS : S.card ≤ (pu ∪ pw).card := Finset.card_le_card hS
  refine ⟨?_, ?_, ?_, ?_⟩
  · rw [Finset.eq_empty_iff_forall_not_mem]
    intro c hc
    rw [Finset.mem_inter] at hc
    exact (mem_newSources hc.1).1 hc.2
  · refine Finset.union_subset hS ?_
    intro a ha
    exact Finset.mem_union_right _ (mem_newSources ha).2
  · intro hns
    obtain ⟨x, hx⟩ := Finset.nonempty_iff_ne_empty.mpr hns
    refine Finset.ssubset_iff_of_subset Finset.subset_union_left |>.mpr
      ⟨x, Finset.mem_union_right _ hx, (mem_newSources hx).1⟩
  · intro fuel hfuel
    exact floodLoop_fuel_stable prefs trenches pu pw ow vis fuel S R vo vt _
      hS (by omega) (by omega)

/-- Witness for C9 at a concrete frontier state. -/
theorem claim_C9_flood_termination_witness :
    (({(1, 1)} : Finset Cell) ⊆ {(1, 1)} ∪ {(1, 2)}) ∧
      newSources prefsW {(1, 2)} {(1, 1)} ∩ {(1, 1)} = ∅ :=
  ⟨by decide, (claim_C9_flood_termination prefsW ∅ {(1, 1)} {(1, 2)} ∅ false
    {(1, 1)} ∅ ∅ ∅ (by decide)).1⟩

/-! ### C10: units never coincide with trenches -/

/-- Mirror of a first-column base cell. -/
lemma mirror_left {n b : Nat} (h1 : 1 ≤ b) (h2 : b ≤ n) :
    pointMirror n (1, b) = (n, n - b + 1) := by
  simp only [pointMirror, Prod.mk.injEq]
  omega

/-- Mirror of a last-column base cell. -/
lemma mirror_right {n b : Nat} (h1 : 1 ≤ b) (h2 : b ≤ n) :
    pointMirror n (n, n - b + 1) = (1, b) := by
  simp only [pointMirror, Prod.mk.injEq]
  omega

lemma initSecondY_range (prefs : GamePreferences) (r2 : Nat) (hpos : 0 < prefs.size) :
    1 ≤ initSecondY prefs r2 ∧ initSecondY prefs r2 ≤ prefs.size := by
  unfold initSecondY randint
  split
  · have h := Nat.mod_lt r2 (y := prefs.size + 1 - (prefs.size / 2 + 1)) (by omega)
    omega
  · omega

/-- The combined base set placed by `_init_players` on a fresh game is closed
under the point mirror. -/
lemma init_units_mirror (prefs : GamePreferences) (r1 r2 : Nat) (hpos : 0 < prefs.size) :
    ∀ c ∈ initActiveUnits prefs ∅ r1 r2 ∪ initPassiveUnits prefs ∅ r1 r2,
      pointMirror prefs.size c ∈
        initActiveUnits prefs ∅ r1 r2 ∪ initPassiveUnits prefs ∅ r1 r2 := by
  have hf := initFirstY_bounds prefs r1 hpos
  have hf2 : initFirstY prefs r1 ≤ prefs.size := by omega
  have hs := initSecondY_range prefs r2 hpos
  intro c hc
  unfold initActiveUnits initPassiveUnits at hc ⊢
  rw [Finset.mem_union] at hc ⊢
  by_cases hdb : prefs.is_double_base = true
  · simp only [if_pos hdb] at hc ⊢
    simp only [Finset.mem_insert, Finset.not_mem_empty, or_false] at hc ⊢
    rcases hc with (rfl | rfl) | (rfl | rfl)
    · rw [mirror_left hs.1 hs.2]
      exact Or.inr (Or.inl rfl)
    · rw [mirror_left hf.1 hf2]
      exact Or.inr (Or.inr rfl)
    · rw [mirror_right hs.1 hs.2]
      exact Or.inl (Or.inl rfl)
    · rw [mirror_right hf.1 hf2]
      exact Or.inl (Or.inr rfl)
  · simp only [if_neg hdb] at hc ⊢
    simp only [Finset.mem_insert, Finset.not_mem_empty, or_false] at hc ⊢
    rcases hc with rfl | rfl
    · rw [mirror_left hf.1 hf2]
      exact Or.inr rfl
    · rw [mirror_right hf.1 hf2]
      exact Or.inl rfl

/-- Generated trench cells avoid the base cells whenever the combined base set
is closed under the point mirror: the candidate itself is filtered against the
bases, and its mirror cannot be a base because the candidate would then be the
mirror of a base, hence a base. -/
lemma generate_trenches_avoid (prefs : GamePreferences) (aU pU : Finset Cell)
    (randT : Cell → Nat)
    (hmc : ∀ c ∈ aU ∪ pU, pointMirror prefs.size c ∈ aU ∪ pU) :
    ∀ c ∈ Game.generate_trenches prefs aU pU randT, c ∉ aU ∪ pU := by
  intro c hc
  unfold Game.generate_trenches at hc
  by_cases hden : prefs.trench_density_percent = 0
  · rw [if_pos hden] at hc
    exact absurd hc (Finset.not_mem_empty c)
  · rw [if_neg hden] at hc
    rw [Finset.mem_biUnion] at hc
    obtain ⟨q, hq, hcq⟩ := hc
    have hqf := Finset.mem_filter.mp hq
    have hqb := hqf.1
    rw [Finset.mem_product, Finset.mem_range, Finset.mem_range] at hqb
    obtain ⟨hx, hy⟩ := hqb
    obtain ⟨-, hna, hnp, -⟩ := hqf.2
    rw [Finset.mem_insert, Finset.mem_singleton] at hcq
    rcases hcq with rfl | rfl
    · intro hmem
      rw [Finset.mem_union] at hmem
      rcases hmem with h | h
      · exact hna h
      · exact hnp h
    · intro hmem
      have h2 := hmc _ hmem
      have heq : pointMirror prefs.size (prefs.size - q.1, prefs.size - q.2) =
          (q.1 + 1, q.2 + 1) := by
        simp only [pointMirror, Prod.mk.injEq]
        omega
      rw [heq, Finset.mem_union] at h2
      rcases h2 with h | h
      · exact hna h
      · exact hnp h

/-- A zero-size board generates no trenches. -/
lemma generate_trenches_size_zero (prefs : GamePreferences) (aU pU : Finset Cell)
    (randT : Cell → Nat) (hsz : prefs.size = 0) :
    Game.generate_trenches prefs aU pU randT = ∅ := by
  unfold Game.generate_trenches
  split
  · rfl
  · simp [hsz]

/-- The units/trench disjointness invariant. -/
def UnitsTrenchInv (g : Game) : Prop :=
  (∀ c ∈ g.active_player.units, c ∉ g.trenches) ∧
    (∀ c ∈ g.passive_player.units, c ∉ g.trenches)

/-- `init()` on a fresh game establishes the units/trench disjointness. -/
lemma init_unitsTrench {gid : String} {prefs : GamePreferences} {aid pid : String}
    {r1 r2 : Nat} {randT : Cell → Nat} {g' : Game}
    (hinit : (Game.fresh gid prefs aid pid).init r1 r2 randT = some g') :
    UnitsTrenchInv g' := by
  obtain ⟨-, hau, hpu, htr, -⟩ := init_spec hinit
  have hfa : (Game.fresh gid prefs aid pid).active_player.units = ∅ := rfl
  have hfp : (Game.fresh gid prefs aid pid).passive_player.units = ∅ := rfl
  have hpr : (Game.fresh gid prefs aid pid).preferences = prefs := rfl
  rw [hfa] at hau htr
  rw [hfp] at hpu htr
  rw [hpr] at hau hpu htr
  by_cases hpos : 0 < prefs.size
  · have havoid := generate_trenches_avoid prefs _ _ randT
      (init_units_mirror prefs r1 r2 hpos)
    constructor
    · intro c hcu hct
      rw [htr] at hct
      have hnm := havoid c hct
      rw [Finset.mem_union] at hnm
      rw [hau] at hcu
      exact hnm (Or.inl hcu)
    · intro c hcu hct
      rw [htr] at hct
      have hnm := havoid c hct
      rw [Finset.mem_union] at hnm
      rw [hpu] at hcu
      exact hnm (Or.inr hcu)
  · have hz := generate_trenches_size_zero prefs
      (initActiveUnits prefs ∅ r1 r2) (initPassiveUnits prefs ∅ r1 r2) randT (by omega)
    rw [hz] at htr
    constructor
    · intro c _ hct
      rw [htr] at hct
      exact Finset.not_mem_empty c hct
    · intro c _ hct
      rw [htr] at hct
      exact Finset.not_mem_empty c hct

/-- A resolved move keeps both unit sets clear of the trench set: capture only
shrinks the opponent's units, a trench claim leaves units untouched, and the
expand branch is only taken for non-trench cells. -/
lemma resolve_turn_units_avoid (prefs : GamePreferences) (t : Finset Cell)
    (cell : Cell) (p o : Player)
    (hp : ∀ c ∈ p.units, c ∉ t) (ho : ∀ c ∈ o.units, c ∉ t) :
    (∀ c ∈ (Game.resolve_turn prefs t cell p o).1.units, c ∉ t) ∧
      (∀ c ∈ (Game.resolve_turn prefs t cell p o).2.units, c ∉ t) := by
  obtain ⟨hcap, htr, hexp⟩ := resolve_turn_cases prefs t cell p o
  by_cases h1 : cell ∈ o.units
  · obtain ⟨h2', h1'⟩ := hcap h1
    constructor
    · intro c hc
      rw [h1', rebuild_units] at hc
      exact hp c hc
    · intro c hc
      rw [h2', rebuild_units] at hc
      exact ho c (Finset.mem_of_mem_erase hc)
  · by_cases h2 : cell ∈ t
    · obtain ⟨h2', h1'⟩ := htr h1 h2
      constructor
      · intro c hc
        rw [h1', rebuild_units] at hc
        exact hp c hc
      · intro c hc
        rw [h2'] at hc
        exact ho c hc
    · obtain ⟨h2', h1'⟩ := hexp h1 h2
      constructor
      · intro c hc
        rw [h1', rebuild_units] at hc
        rw [Finset.mem_insert] at hc
        rcases hc with rfl | hc
        · exact h2
        · exact hp c hc
      · intro c hc
        rw [h2'] at hc
        exact ho c hc

/-- The bot round preserves units/trench disjointness. -/
lemma botLoop_unitsTrench (bot : GameView → Int → Cell) :
    ∀ (n : Nat) (g : Game), UnitsTrenchInv g →
      UnitsTrenchInv (Game.botLoop bot n g).2 := by
  intro n
  induction n with
  | zero => intro g hg; exact hg
  | succ n ih =>
    intro g hg
    rw [Game.botLoop]
    by_cases h0 : g.passive_player.reachable = ∅
    · simp only [if_pos h0]
      exact ⟨fun c hc => hg.1 c hc, fun c hc => hg.2 c hc⟩
    · simp only [if_neg h0]
      cases hv : g.get_view g.passive_player.id with
      | none => exact hg
      | some p =>
        obtain ⟨view, g1⟩ := p
        have hg1 : g1 = g := get_view_state hv
        subst hg1
        by_cases hcell : bot view g1.turns_left ∈ g1.passive_player.reachable
        · simp only [if_pos hcell]
          apply ih
          have h := resolve_turn_units_avoid g1.preferences g1.trenches
            (bot view g1.turns_left) g1.passive_player g1.active_player hg.2 hg.1
          exact ⟨h.2, h.1⟩
        · simp only [if_neg hcell]
          exact hg

/-- The deathmatch escalation does not touch players or trenches. -/
lemma deathmatchBump_unitsTrench {g : Game} (h : UnitsTrenchInv g) :
    UnitsTrenchInv g.deathmatchBump := by
  unfold Game.deathmatchBump
  split
  · exact h
  · exact h

/-- The round bookkeeping preserves units/trench disjointness. -/
lemma decrement_turns_unitsTrench (bot : GameView → Int → Cell) (g : Game)
    (hg : UnitsTrenchInv g) : UnitsTrenchInv (Game.decrement_turns bot g).2 := by
  unfold Game.decrement_turns
  have hzero : ∀ g3 : Game, UnitsTrenchInv g3 →
      UnitsTrenchInv (Game.roundZero bot g3).2 := by
    intro g3 hg3
    unfold Game.roundZero
    split
    · have hloop := botLoop_unitsTrench bot g3.preferences.turn_count.toNat g3 hg3
      cases hres : Game.botLoop bot g3.preferences.turn_count.toNat g3 with
      | mk e g4 =>
        rw [hres] at hloop
        cases e with
        | some err => exact hloop
        | none => exact deathmatchBump_unitsTrench hloop
    · exact ⟨hg3.2, hg3.1⟩
  have hdc : ∀ gO : Game, UnitsTrenchInv gO → UnitsTrenchInv gO.defeatCheck := by
    intro gO hO
    unfold Game.defeatCheck
    split
    · exact ⟨fun c hc => hO.1 c hc, fun c hc => hO.2 c hc⟩
    · exact hO
  have htick : UnitsTrenchInv g.tickTurn := hg
  have hbump : UnitsTrenchInv g.tickTurn.deathmatchBump.resetTurns :=
    deathmatchBump_unitsTrench htick
  split
  · rename_i e gE heq
    split at heq
    · have := hzero _ hbump
      rw [heq] at this
      exact this
    · cases heq
  · rename_i gO heq
    apply hdc
    split at heq
    · have := hzero _ hbump
      rw [heq] at this
      exact this
    · cases heq
      exact htick

/-- `make_turn` preserves units/trench disjointness. -/
lemma make_turn_unitsTrench (bot : GameView → Int → Cell) (g : Game) (pid : String)
    (cell : Cell) (hg : UnitsTrenchInv g) :
    UnitsTrenchInv (g.make_turn bot pid cell).2 := by
  unfold Game.make_turn
  split
  · exact hg
  · apply decrement_turns_unitsTrench
    have h := resolve_turn_units_avoid g.preferences g.trenches cell
      g.active_player g.passive_player hg.1 hg.2
    exact ⟨h.1, h.2⟩

/-- Every reachable game state keeps both unit sets disjoint from the trench
set. -/
lemma reaches_unitsTrench {g : Game} (h : Reaches g) : UnitsTrenchInv g := by
  induction h with
  | init_reached gid prefs aid pid r1 r2 randT g' hinit => exact init_unitsTrench hinit
  | step g bot pid cell g' _ hstep ih =>
    have := make_turn_unitsTrench bot g pid cell ih
    rw [hstep] at this
    exact this

/-- C10: in every reachable game state each player's units are disjoint from
the trench set — a trench can become a wall but never a unit. -/
theorem claim_C10_units_trench_disjoint (g : Game) (h : Reaches g) :
    g.active_player.units ∩ g.trenches = ∅ ∧
      g.passive_player.units ∩ g.trenches = ∅ := by
  have hi := reaches_unitsTrench h
  constructor <;> rw [Finset.eq_empty_iff_forall_not_mem]
  · intro c hc
    rw [Finset.mem_inter] at hc
    exact hi.1 c hc.1 hc.2
  · intro c hc
    rw [Finset.mem_inter] at hc
    exact hi.2 c hc.1 hc.2

/-- Witness for C10 at a concrete reachable state with a nonempty trench set
(the initialized full-density 4×4 game). -/
theorem claim_C10_units_trench_disjoint_witness :
    (Game.fresh "t" prefsT "a" "b").init 0 0 (fun _ => 0) = some gT1 ∧
      gT1.active_player.units ∩ gT1.trenches = ∅ ∧
      gT1.passive_player.units ∩ gT1.trenches = ∅ := by
  have hinit : (Game.fresh "t" prefsT "a" "b").init 0 0 (fun _ => 0) = some gT1 := rfl
  exact ⟨hinit, claim_C10_units_trench_disjoint gT1
    (Reaches.init_reached "t" prefsT "a" "b" 0 0 (fun _ => 0) gT1 hinit)⟩
